import Mathlib

/-!
Shallow embedding of the chatapp SMS scheduling backend: the storage
layer (src/server/storage.ts), the drizzle table schema
(src/unnamed/part_000), and the Express route handlers plus the
node-cron background worker (src/unnamed/part_001).

Modelling conventions:
* UUID string ids are modelled as natural numbers drawn from a single
  monotone fresh-id counter (the store field nextId); the freshness of
  randomUUID is captured by the counter discipline.
* JS Date timestamps are modelled as integers (epoch milliseconds).
* Task status is kept as a String, exactly as in the source; the schema
  comment documents the values pending, sent, failed.
* Nullable columns are Option values.  The UPDATE in
  updateSmsTaskStatus writes the JS expression (error || null): an
  absent or empty-string error is stored as NULL.
-/

/-- Row of the sms_tasks table (drizzle schema, src/unnamed/part_000). -/
structure SmsTask where
  id : Nat
  deviceId : Option Nat
  contactId : Nat
  content : String
  scheduledAt : Int
  status : String
  error : Option String
  createdAt : Int
  deriving DecidableEq

/-- Row of the contacts table (drizzle schema, src/unnamed/part_000). -/
structure Contact where
  id : Nat
  phoneNumber : String
  name : Option String
  createdAt : Int
  deriving DecidableEq

/-- The SQLite database state visible to the scheduling core, plus the
fresh-id counter standing for the randomUUID supply. -/
structure Store where
  contacts : List Contact
  smsTasks : List SmsTask
  nextId : Nat
  deriving DecidableEq

/-- storage.ts getContactByPhone: SELECT the first contact row whose
phone_number equals the argument. -/
def getContactByPhone (phone : String) (s : Store) : Option Contact :=
  s.contacts.find? (fun c => c.phoneNumber == phone)

/-- storage.ts createContact: INSERT a contact row with a fresh id and
created_at defaulted to the current instant. -/
def createContact (phoneNumber : String) (name : Option String) (now : Int) (s : Store) :
    Contact × Store :=
  let c : Contact := { id := s.nextId, phoneNumber := phoneNumber, name := name, createdAt := now }
  (c, { s with contacts := s.contacts ++ [c], nextId := s.nextId + 1 })

/-- storage.ts createSmsTask: INSERT a task row; the caller supplies the
status (the schedules handler always passes pending); error defaults to
NULL and created_at to the current instant. -/
def createSmsTask (deviceId : Option Nat) (contactId : Nat) (content : String)
    (scheduledAt : Int) (status : String) (now : Int) (s : Store) : SmsTask × Store :=
  let t : SmsTask :=
    { id := s.nextId, deviceId := deviceId, contactId := contactId, content := content,
      scheduledAt := scheduledAt, status := status, error := none, createdAt := now }
  (t, { s with smsTasks := s.smsTasks ++ [t], nextId := s.nextId + 1 })

/-- storage.ts getPendingSmsTasks: SELECT the tasks whose status is
pending and whose scheduled_at is strictly less than now (drizzle lt). -/
def getPendingSmsTasks (now : Int) (s : Store) : List SmsTask :=
  s.smsTasks.filter (fun t => t.status == "pending" && decide (t.scheduledAt < now))

/-- The JS expression (error || null) used by updateSmsTaskStatus: an
absent or empty-string error is stored as NULL. -/
def errOrNull : Option String → Option String
  | none => none
  | some e => if e = "" then none else some e

/-- storage.ts updateSmsTaskStatus: unconditional UPDATE of status and
error on every row carrying the given id. -/
def updateSmsTaskStatus (id : Nat) (status : String) (error : Option String) (s : Store) :
    Store :=
  { s with
    smsTasks := s.smsTasks.map (fun t =>
      if t.id = id then { t with status := status, error := errOrNull error } else t) }

/-- Result record of storage.ts getDashboardStats. -/
structure DashboardStats where
  totalContacts : Nat
  totalSmsScheduled : Nat
  totalSent : Nat
  totalFailed : Nat
  totalPending : Nat
  deriving DecidableEq

/-- storage.ts getDashboardStats: five COUNT queries over the store. -/
def getDashboardStats (s : Store) : DashboardStats :=
  { totalContacts := s.contacts.length
    totalSmsScheduled := s.smsTasks.length
    totalSent := (s.smsTasks.filter (fun t => t.status == "sent")).length
    totalFailed := (s.smsTasks.filter (fun t => t.status == "failed")).length
    totalPending := (s.smsTasks.filter (fun t => t.status == "pending")).length }

/-- Outcome of an Express handler as seen by the client: a 200 JSON
payload, or a 400 rejection with its message. -/
inductive ApiResult (α : Type) where
  | ok (value : α) : ApiResult α
  | validationError (message : String) : ApiResult α
  deriving DecidableEq

/-- JS String.prototype.trim on the character list: drop leading and
trailing whitespace. -/
def trimChars (cs : List Char) : List Char :=
  ((cs.dropWhile Char.isWhitespace).reverse.dropWhile Char.isWhitespace).reverse

/-- Number of maximal non-whitespace runs in a character list; the flag
records whether the previous character belonged to a run. -/
def countWords (inWord : Bool) : List Char → Nat
  | [] => 0
  | c :: rest =>
    if Char.isWhitespace c then countWords false rest
    else (if inWord then 0 else 1) + countWords true rest

/-- The JS expression content.trim().split(regex of one-or-more
whitespace).length: after trimming, splitting at maximal whitespace runs
yields exactly the non-whitespace runs, so the length is their count; on
the empty trimmed string the JS split yields a single empty fragment,
hence count 1. -/
def wordCount (content : String) : Nat :=
  let t := trimChars content.toList
  if t.isEmpty then 1 else countWords false t

/-- The phone regex of the contacts handler: an optional leading plus
sign followed by at least ten characters, each a digit, whitespace or
hyphen. -/
def validPhone (p : String) : Bool :=
  let rest :=
    match p.toList with
    | '+' :: r => r
    | r => r
  decide (rest.length ≥ 10) && rest.all (fun c => c.isDigit || c.isWhitespace || c == '-')

/-- Express handler POST /api/contacts (src/unnamed/part_001): a missing
or empty phone number (JS falsiness) and a malformed phone number are
rejected with 400; an already stored phone number returns the existing
contact unchanged; otherwise a contact row is inserted. -/
def postContacts (phoneNumber : Option String) (name : Option String) (now : Int) (s : Store) :
    ApiResult Contact × Store :=
  match phoneNumber with
  | none => (ApiResult.validationError "Phone number required", s)
  | some pn =>
    if pn = "" then (ApiResult.validationError "Phone number required", s)
    else if !validPhone pn then (ApiResult.validationError "Invalid phone number format", s)
    else
      match getContactByPhone pn s with
      | some existing => (ApiResult.ok existing, s)
      | none =>
        let r := createContact pn name now s
        (ApiResult.ok r.1, r.2)

/-- Body of a POST /api/schedules request. -/
structure ScheduleReq where
  deviceId : Option Nat
  contactId : Option Nat
  content : Option String
  scheduledAt : Option Int
  deriving DecidableEq

/-- Express handler POST /api/schedules (src/unnamed/part_001): the JS
guard on contactId, content and scheduledAt rejects missing fields (and
the empty content string, which is falsy); a content of more than 20
whitespace-delimited words is rejected; otherwise the task is inserted
with status pending.  The destination contact id is not checked against
the contacts table, and the declared foreign key is not enforced at run
time (better-sqlite3 leaves PRAGMA foreign_keys off and storage.ts
issues no pragma). -/
def postSchedules (req : ScheduleReq) (now : Int) (s : Store) : ApiResult SmsTask × Store :=
  match req.contactId, req.content, req.scheduledAt with
  | some cid, some ct, some sAt =>
    if ct = "" then (ApiResult.validationError "Contact, content, and schedule time required", s)
    else if wordCount ct > 20 then (ApiResult.validationError "Message cannot exceed 20 words", s)
    else
      let r := createSmsTask req.deviceId cid ct sAt "pending" now s
      (ApiResult.ok r.1, r.2)
  | _, _, _ => (ApiResult.validationError "Contact, content, and schedule time required", s)

/-- Outcome of processing one due task inside the cron callback: the
mock send (the UPDATE to sent) succeeds; or it throws and the per-task
catch records failed with the thrown message; or both UPDATEs throw, so
the error escapes the per-task catch and aborts the loop over the
remaining tasks. -/
inductive SendOutcome where
  | ok : SendOutcome
  | failOk (reason : String) : SendOutcome
  | failFail (reason : String) : SendOutcome
  deriving DecidableEq

/-- Environment of one cron tick: whether the initial SELECT of due
tasks throws, and the outcome of processing each task id. -/
structure TickEnv where
  selectFault : Bool
  outcome : Nat → SendOutcome

/-- Per-task loop of the cron callback over the snapshot of due tasks.
Returns the store after the writes that happened, together with the
message of an uncaught throw when one aborted the loop early. -/
def processTasks (env : TickEnv) : List SmsTask → Store → Store × Option String
  | [], s => (s, none)
  | t :: rest, s =>
    match env.outcome t.id with
    | SendOutcome.ok => processTasks env rest (updateSmsTaskStatus t.id "sent" none s)
    | SendOutcome.failOk r => processTasks env rest (updateSmsTaskStatus t.id "failed" (some r) s)
    | SendOutcome.failFail r => (s, some r)

/-- Body of the cron callback before its outer catch: the due-task
SELECT followed by the per-task loop. -/
def tickBody (env : TickEnv) (now : Int) (s : Store) : Store × Option String :=
  if env.selectFault then (s, some "store fault")
  else processTasks env (getPendingSmsTasks now s) s

/-- One cron tick (the cron.schedule callback of src/unnamed/part_001):
the outer try/catch logs any error escaping the body and leaves the
store as the body produced it; nothing propagates past the tick. -/
def tick (env : TickEnv) (now : Int) (s : Store) : Store :=
  (tickBody env now s).1

/-- One state-changing interaction with the store: a cron tick, a
schedule-creation request, or a contact-creation request. -/
inductive Op where
  | tickOp (env : TickEnv) (now : Int) : Op
  | schedOp (req : ScheduleReq) (now : Int) : Op
  | contactOp (phoneNumber : Option String) (name : Option String) (now : Int) : Op

/-- Apply one operation to the store. -/
def applyOp (o : Op) (s : Store) : Store :=
  match o with
  | Op.tickOp env now => tick env now s
  | Op.schedOp req now => (postSchedules req now s).2
  | Op.contactOp pn nm now => (postContacts pn nm now s).2

/-- Run a sequence of operations from a store state. -/
def runOps (ops : List Op) (s : Store) : Store :=
  match ops with
  | [] => s
  | o :: rest => runOps rest (applyOp o s)

/-- The freshly initialised database. -/
def emptyStore : Store := { contacts := [], smsTasks := [], nextId := 0 }

/-- Store states produced by some sequence of operations from the empty
database. -/
def Reachable (s : Store) : Prop := ∃ ops : List Op, runOps ops emptyStore = s

/-- Structural well-formedness maintained by every operation: row ids
are pairwise distinct and below the fresh-id counter, task statuses lie
in the documented three-value set, and contact phone numbers are
pairwise distinct. -/
def WF (s : Store) : Prop :=
  (s.smsTasks.map (fun t => t.id)).Nodup ∧
  (∀ t ∈ s.smsTasks, t.id < s.nextId ∧
    (t.status = "pending" ∨ t.status = "sent" ∨ t.status = "failed")) ∧
  (s.contacts.map (fun c => c.phoneNumber)).Nodup ∧
  (∀ c ∈ s.contacts, c.id < s.nextId ∧ validPhone c.phoneNumber = true)

/-- Error-field invariant: a task carries an error message only when its
status is failed, and a stored message is never the empty string. -/
def errOk (s : Store) : Prop :=
  ∀ t ∈ s.smsTasks, t.error = none ∨ (t.status = "failed" ∧ t.error ≠ some "")

instance (s : Store) : Decidable (WF s) := by
  unfold WF
  infer_instance

instance (s : Store) : Decidable (errOk s) := by
  unfold errOk
  infer_instance

/-! ### Basic lemmas about the storage operations -/

lemma errOrNull_ne_empty (e : Option String) : errOrNull e ≠ some "" := by
  cases e with
  | none => simp [errOrNull]
  | some x => by_cases hx : x = "" <;> simp [errOrNull, hx]

lemma mem_getPendingSmsTasks {now : Int} {s : Store} {t : SmsTask} :
    t ∈ getPendingSmsTasks now s ↔
      t ∈ s.smsTasks ∧ t.status = "pending" ∧ t.scheduledAt < now := by
  simp [getPendingSmsTasks, List.mem_filter]

lemma update_smsTasks (id : Nat) (st : String) (e : Option String) (s : Store) :
    (updateSmsTaskStatus id st e s).smsTasks =
      s.smsTasks.map (fun t =>
        if t.id = id then { t with status := st, error := errOrNull e } else t) := rfl

lemma update_contacts (id : Nat) (st : String) (e : Option String) (s : Store) :
    (updateSmsTaskStatus id st e s).contacts = s.contacts := rfl

lemma update_nextId (id : Nat) (st : String) (e : Option String) (s : Store) :
    (updateSmsTaskStatus id st e s).nextId = s.nextId := rfl

lemma map_patch_id (l : List SmsTask) (id : Nat) (st : String) (e : Option String) :
    (l.map (fun t =>
      if t.id = id then { t with status := st, error := errOrNull e } else t)).map
        (fun t => t.id) = l.map (fun t => t.id) := by
  induction l with
  | nil => rfl
  | cons a tl ih => by_cases h : a.id = id <;> simp [h, ih]

lemma update_map_id (id : Nat) (st : String) (e : Option String) (s : Store) :
    (updateSmsTaskStatus id st e s).smsTasks.map (fun t => t.id) =
      s.smsTasks.map (fun t => t.id) := by
  rw [update_smsTasks]
  exact map_patch_id _ _ _ _

lemma mem_update_of_ne {id : Nat} {st : String} {e : Option String} {s : Store} {t : SmsTask}
    (h : t ∈ s.smsTasks) (hne : t.id ≠ id) :
    t ∈ (updateSmsTaskStatus id st e s).smsTasks := by
  rw [update_smsTasks]
  refine List.mem_map.mpr ⟨t, h, ?_⟩
  simp [hne]

lemma mem_update_self {id : Nat} {st : String} {e : Option String} {s : Store} {t : SmsTask}
    (h : t ∈ s.smsTasks) (hid : t.id = id) :
    { t with status := st, error := errOrNull e } ∈ (updateSmsTaskStatus id st e s).smsTasks := by
  rw [update_smsTasks]
  refine List.mem_map.mpr ⟨t, h, ?_⟩
  simp [hid]

lemma mem_update_elim {id : Nat} {st : String} {e : Option String} {s : Store} {u : SmsTask}
    (h : u ∈ (updateSmsTaskStatus id st e s).smsTasks) :
    ∃ v ∈ s.smsTasks,
      (v.id ≠ id ∧ u = v) ∨ (v.id = id ∧ u = { v with status := st, error := errOrNull e }) := by
  rw [update_smsTasks] at h
  rcases List.mem_map.mp h with ⟨v, hv, he⟩
  refine ⟨v, hv, ?_⟩
  by_cases hid : v.id = id
  · right
    refine ⟨hid, ?_⟩
    rw [← he]
    simp [hid]
  · left
    refine ⟨hid, ?_⟩
    rw [← he]
    simp [hid]

/-- Evolution of a single task row under the delivery pipeline: it is
untouched, or it was pending and a single update stamped it sent, or it
was pending and a single update stamped it failed with a recorded
reason. -/
def evolves (t u : SmsTask) : Prop :=
  u = t ∨ (t.status = "pending" ∧
    (u = { t with status := "sent", error := none } ∨
      ∃ r : String, u = { t with status := "failed", error := errOrNull (some r) }))

lemma evolves_rfl (t : SmsTask) : evolves t t := Or.inl rfl

lemma evolves_id {t u : SmsTask} (h : evolves t u) : u.id = t.id := by
  rcases h with h | ⟨hp, h | ⟨r, h⟩⟩ <;> subst h <;> rfl

lemma evolves_status {t u : SmsTask} (h : evolves t u) :
    u.status = t.status ∨ (t.status = "pending" ∧ (u.status = "sent" ∨ u.status = "failed")) := by
  rcases h with h | ⟨hp, h | ⟨r, h⟩⟩ <;> subst h
  · left; rfl
  · right; exact ⟨hp, Or.inl rfl⟩
  · right; exact ⟨hp, Or.inr rfl⟩

lemma evolves_of_nonpending {t u : SmsTask} (h : evolves t u) (hs : t.status ≠ "pending") :
    u = t := by
  rcases h with h | ⟨hp, _⟩
  · exact h
  · exact absurd hp hs

lemma evolves_trans {t u v : SmsTask} (h1 : evolves t u) (h2 : evolves u v) : evolves t v := by
  rcases h1 with h1 | ⟨hp, h1⟩
  · subst h1; exact h2
  · rcases h2 with h2 | ⟨hp2, _⟩
    · subst h2; exact Or.inr ⟨hp, h1⟩
    · rcases h1 with h1 | ⟨r, h1⟩ <;> subst h1 <;> simp at hp2

/-! ### Invariant preservation by the per-tick loop -/

lemma processTasks_contacts (env : TickEnv) :
    ∀ (l : List SmsTask) (s : Store), (processTasks env l s).1.contacts = s.contacts := by
  intro l
  induction l with
  | nil => intro s; rfl
  | cons a tl ih =>
    intro s
    cases h : env.outcome a.id <;> simp [processTasks, h, ih, update_contacts]

lemma processTasks_nextId (env : TickEnv) :
    ∀ (l : List SmsTask) (s : Store), (processTasks env l s).1.nextId = s.nextId := by
  intro l
  induction l with
  | nil => intro s; rfl
  | cons a tl ih =>
    intro s
    cases h : env.outcome a.id <;> simp [processTasks, h, ih, update_nextId]

lemma processTasks_map_id (env : TickEnv) :
    ∀ (l : List SmsTask) (s : Store),
      (processTasks env l s).1.smsTasks.map (fun t => t.id) =
        s.smsTasks.map (fun t => t.id) := by
  intro l
  induction l with
  | nil => intro s; rfl
  | cons a tl ih =>
    intro s
    cases h : env.outcome a.id <;> simp [processTasks, h, ih, update_map_id]

lemma processTasks_untouched (env : TickEnv) :
    ∀ (l : List SmsTask) (s : Store) (t : SmsTask),
      (∀ u ∈ l, u.id ≠ t.id) → t ∈ s.smsTasks → t ∈ (processTasks env l s).1.smsTasks := by
  intro l
  induction l with
  | nil => intro s t _ ht; exact ht
  | cons a tl ih =>
    intro s t hne ht
    have ha : a.id ≠ t.id := hne a (List.mem_cons_self a tl)
    have ht2 : t.id ≠ a.id := fun h => ha h.symm
    cases h : env.outcome a.id with
    | ok =>
      simp only [processTasks, h]
      exact ih _ t (fun u hu => hne u (List.mem_cons_of_mem a hu)) (mem_update_of_ne ht ht2)
    | failOk r =>
      simp only [processTasks, h]
      exact ih _ t (fun u hu => hne u (List.mem_cons_of_mem a hu)) (mem_update_of_ne ht ht2)
    | failFail r =>
      simpa [processTasks, h] using ht

lemma WF_update {s : Store} {id : Nat} {st : String} {e : Option String}
    (hst : st = "sent" ∨ st = "failed") (h : WF s) :
    WF (updateSmsTaskStatus id st e s) := by
  obtain ⟨h1, h2, h3, h4⟩ := h
  refine ⟨?_, ?_, ?_, ?_⟩
  · rw [update_map_id]; exact h1
  · intro u hu
    rcases mem_update_elim hu with ⟨v, hv, ⟨_, rfl⟩ | ⟨_, rfl⟩⟩
    · exact h2 _ hv
    · refine ⟨(h2 v hv).1, ?_⟩
      rcases hst with rfl | rfl
      · exact Or.inr (Or.inl rfl)
      · exact Or.inr (Or.inr rfl)
  · rw [update_contacts]; exact h3
  · rw [update_contacts]; exact h4

lemma errOk_update_sent {s : Store} {id : Nat} (h : errOk s) :
    errOk (updateSmsTaskStatus id "sent" none s) := by
  intro u hu
  rcases mem_update_elim hu with ⟨v, hv, ⟨_, rfl⟩ | ⟨_, rfl⟩⟩
  · exact h _ hv
  · exact Or.inl rfl

lemma errOk_update_failed {s : Store} {id : Nat} {r : String} (h : errOk s) :
    errOk (updateSmsTaskStatus id "failed" (some r) s) := by
  intro u hu
  rcases mem_update_elim hu with ⟨v, hv, ⟨_, rfl⟩ | ⟨_, rfl⟩⟩
  · exact h _ hv
  · refine Or.inr ⟨rfl, ?_⟩
    simpa using errOrNull_ne_empty (some r)

lemma WF_processTasks (env : TickEnv) :
    ∀ (l : List SmsTask) (s : Store), WF s → WF (processTasks env l s).1 := by
  intro l
  induction l with
  | nil => intro s h; exact h
  | cons a tl ih =>
    intro s h
    cases ho : env.outcome a.id with
    | ok => simpa [processTasks, ho] using ih _ (WF_update (Or.inl rfl) h)
    | failOk r => simpa [processTasks, ho] using ih _ (WF_update (Or.inr rfl) h)
    | failFail r => simpa [processTasks, ho] using h

lemma errOk_processTasks (env : TickEnv) :
    ∀ (l : List SmsTask) (s : Store), errOk s → errOk (processTasks env l s).1 := by
  intro l
  induction l with
  | nil => intro s h; exact h
  | cons a tl ih =>
    intro s h
    cases ho : env.outcome a.id with
    | ok => simpa [processTasks, ho] using ih _ (errOk_update_sent h)
    | failOk r => simpa [processTasks, ho] using ih _ (errOk_update_failed h)
    | failFail r => simpa [processTasks, ho] using h

lemma WF_tick {s : Store} (env : TickEnv) (now : Int) (h : WF s) : WF (tick env now s) := by
  by_cases hf : env.selectFault <;> simp only [tick, tickBody, hf, if_true, if_false]
  · exact h
  · exact WF_processTasks env _ s h

lemma errOk_tick {s : Store} (env : TickEnv) (now : Int) (h : errOk s) :
    errOk (tick env now s) := by
  by_cases hf : env.selectFault <;> simp only [tick, tickBody, hf, if_true, if_false]
  · exact h
  · exact errOk_processTasks env _ s h

/-! ### Invariant preservation by the request handlers -/

lemma nodup_append_singleton {α : Type} (l : List α) (a : α)
    (h : l.Nodup) (ha : a ∉ l) : (l ++ [a]).Nodup := by
  refine List.nodup_append.mpr ⟨h, List.nodup_singleton a, ?_⟩
  intro x hx hxa
  rw [List.mem_singleton] at hxa
  subst hxa
  exact ha hx

lemma postSchedules_contacts (req : ScheduleReq) (now : Int) (s : Store) :
    (postSchedules req now s).2.contacts = s.contacts := by
  rcases req with ⟨dev, cid, ct, sAt⟩
  cases cid <;> cases ct <;> cases sAt <;>
    simp only [postSchedules, createSmsTask] <;>
    (repeat' split) <;> rfl

lemma postContacts_smsTasks (pn : Option String) (nm : Option String) (now : Int) (s : Store) :
    (postContacts pn nm now s).2.smsTasks = s.smsTasks := by
  cases pn with
  | none => rfl
  | some p =>
    simp only [postContacts, createContact]
    (repeat' split) <;> rfl

lemma WF_postSchedules (req : ScheduleReq) (now : Int) (s : Store) (h : WF s) :
    WF (postSchedules req now s).2 := by
  obtain ⟨h1, h2, h3, h4⟩ := h
  rcases req with ⟨dev, cid, ct, sAt⟩
  cases cid with
  | none => exact ⟨h1, h2, h3, h4⟩
  | some c =>
    cases ct with
    | none => exact ⟨h1, h2, h3, h4⟩
    | some content =>
      cases sAt with
      | none => exact ⟨h1, h2, h3, h4⟩
      | some sa =>
        simp only [postSchedules]
        by_cases hct : content = ""
        · simp only [hct, if_true, reduceIte]
          exact ⟨h1, h2, h3, h4⟩
        · by_cases hwc : wordCount content > 20
          · simp [hct, hwc]
            exact ⟨h1, h2, h3, h4⟩
          · simp only [hct, hwc, if_false, reduceIte, createSmsTask]
            refine ⟨?_, ?_, h3, ?_⟩
            · rw [List.map_append]
              refine nodup_append_singleton _ _ h1 ?_
              intro hmem
              rcases List.mem_map.mp hmem with ⟨t, ht, hid⟩
              exact absurd hid (Nat.ne_of_lt (h2 t ht).1)
            · intro t ht
              rcases List.mem_append.mp ht with ht | ht
              · exact ⟨Nat.lt_succ_of_lt (h2 t ht).1, (h2 t ht).2⟩
              · rw [List.mem_singleton] at ht
                subst ht
                exact ⟨Nat.lt_succ_self _, Or.inl rfl⟩
            · intro c2 hc2
              exact ⟨Nat.lt_succ_of_lt (h4 c2 hc2).1, (h4 c2 hc2).2⟩

lemma errOk_postSchedules (req : ScheduleReq) (now : Int) (s : Store) (h : errOk s) :
    errOk (postSchedules req now s).2 := by
  rcases req with ⟨dev, cid, ct, sAt⟩
  cases cid with
  | none => exact h
  | some c =>
    cases ct with
    | none => exact h
    | some content =>
      cases sAt with
      | none => exact h
      | some sa =>
        simp only [postSchedules]
        by_cases hct : content = ""
        · simpa [hct] using h
        · by_cases hwc : wordCount content > 20
          · simpa [hct, hwc] using h
          · simp only [hct, hwc, if_false, reduceIte, createSmsTask]
            intro t ht
            rcases List.mem_append.mp ht with ht | ht
            · exact h t ht
            · rw [List.mem_singleton] at ht
              subst ht
              exact Or.inl rfl

lemma WF_postContacts (pn : Option String) (nm : Option String) (now : Int) (s : Store)
    (h : WF s) : WF (postContacts pn nm now s).2 := by
  obtain ⟨h1, h2, h3, h4⟩ := h
  cases pn with
  | none => exact ⟨h1, h2, h3, h4⟩
  | some p =>
    simp only [postContacts]
    by_cases hp : p = ""
    · simp only [hp, if_true, reduceIte]
      exact ⟨h1, h2, h3, h4⟩
    · by_cases hv : validPhone p
      · cases hf : getContactByPhone p s with
        | some existing =>
          simp only [hp, hv, Bool.not_true, Bool.false_eq_true, if_false, reduceIte, hf]
          exact ⟨h1, h2, h3, h4⟩
        | none =>
          simp only [hp, hv, Bool.not_true, Bool.false_eq_true, if_false, reduceIte, hf,
            createContact]
          refine ⟨h1, ?_, ?_, ?_⟩
          · intro t ht
            exact ⟨Nat.lt_succ_of_lt (h2 t ht).1, (h2 t ht).2⟩
          · rw [List.map_append]
            refine nodup_append_singleton _ _ h3 ?_
            intro hmem
            rcases List.mem_map.mp hmem with ⟨c, hc, hcp⟩
            have := List.find?_eq_none.mp hf c hc
            simp only [beq_iff_eq] at this
            exact this hcp
          · intro c hc
            rcases List.mem_append.mp hc with hc | hc
            · exact ⟨Nat.lt_succ_of_lt (h4 c hc).1, (h4 c hc).2⟩
            · rw [List.mem_singleton] at hc
              subst hc
              exact ⟨Nat.lt_succ_self _, hv⟩
      · simp only [hp, reduceIte]
        rw [if_pos]
        · exact ⟨h1, h2, h3, h4⟩
        · simp [hv]

lemma errOk_postContacts (pn : Option String) (nm : Option String) (now : Int) (s : Store)
    (h : errOk s) : errOk (postContacts pn nm now s).2 := by
  intro t ht
  rw [postContacts_smsTasks] at ht
  exact h t ht

lemma WF_applyOp (o : Op) (s : Store) (h : WF s) : WF (applyOp o s) := by
  cases o with
  | tickOp env now => exact WF_tick env now h
  | schedOp req now => exact WF_postSchedules req now s h
  | contactOp pn nm now => exact WF_postContacts pn nm now s h

lemma errOk_applyOp (o : Op) (s : Store) (h : errOk s) : errOk (applyOp o s) := by
  cases o with
  | tickOp env now => exact errOk_tick env now h
  | schedOp req now => exact errOk_postSchedules req now s h
  | contactOp pn nm now => exact errOk_postContacts pn nm now s h

lemma WF_runOps : ∀ (ops : List Op) (s : Store), WF s → WF (runOps ops s) := by
  intro ops
  induction ops with
  | nil => intro s h; exact h
  | cons o rest ih => intro s h; exact ih _ (WF_applyOp o s h)

lemma errOk_runOps : ∀ (ops : List Op) (s : Store), errOk s → errOk (runOps ops s) := by
  intro ops
  induction ops with
  | nil => intro s h; exact h
  | cons o rest ih => intro s h; exact ih _ (errOk_applyOp o s h)

lemma WF_emptyStore : WF emptyStore := by decide

lemma errOk_emptyStore : errOk emptyStore := by decide

lemma reachable_WF {s : Store} (h : Reachable s) : WF s := by
  rcases h with ⟨ops, rfl⟩
  exact WF_runOps ops emptyStore WF_emptyStore

lemma reachable_errOk {s : Store} (h : Reachable s) : errOk s := by
  rcases h with ⟨ops, rfl⟩
  exact errOk_runOps ops emptyStore errOk_emptyStore

/-! ### Evolution of individual task rows -/

lemma nodup_id_inj {s : Store} (h1 : (s.smsTasks.map (fun t => t.id)).Nodup)
    {t u : SmsTask} (ht : t ∈ s.smsTasks) (hu : u ∈ s.smsTasks) (hid : u.id = t.id) :
    u = t :=
  List.inj_on_of_nodup_map h1 hu ht hid

lemma getPending_ids_nodup {now : Int} {s : Store}
    (h1 : (s.smsTasks.map (fun t => t.id)).Nodup) :
    ((getPendingSmsTasks now s).map (fun t => t.id)).Nodup :=
  ((List.filter_sublist s.smsTasks).map (fun t => t.id)).nodup h1

lemma inv_update {s : Store} {aid : Nat} {st : String} {e : Option String}
    (tl : List SmsTask)
    (hinv : ∀ u ∈ tl, ∀ v ∈ s.smsTasks, v.id = u.id → v.status = "pending")
    (hna : aid ∉ tl.map (fun t => t.id)) :
    ∀ u ∈ tl, ∀ v ∈ (updateSmsTaskStatus aid st e s).smsTasks,
      v.id = u.id → v.status = "pending" := by
  intro u hu v hv hid
  rcases mem_update_elim hv with ⟨w, hw, ⟨hne, hvw⟩ | ⟨haid, hvw⟩⟩
  · subst hvw
    exact hinv u hu _ hw hid
  · subst hvw
    exfalso
    have hwid : w.id = u.id := by simpa using hid
    apply hna
    rw [← haid, hwid]
    exact List.mem_map_of_mem _ hu

lemma processTasks_evolves (env : TickEnv) :
    ∀ (l : List SmsTask) (s : Store),
      (s.smsTasks.map (fun t => t.id)).Nodup →
      (l.map (fun t => t.id)).Nodup →
      (∀ u ∈ l, ∀ v ∈ s.smsTasks, v.id = u.id → v.status = "pending") →
      ∀ t ∈ s.smsTasks, ∃ u ∈ (processTasks env l s).1.smsTasks, evolves t u := by
  intro l
  induction l with
  | nil => intro s _ _ _ t ht; exact ⟨t, ht, evolves_rfl t⟩
  | cons a tl ih =>
    intro s hs hl hinv t ht
    have hl2 : (tl.map (fun t => t.id)).Nodup := (List.nodup_cons.mp hl).2
    have hana : a.id ∉ tl.map (fun t => t.id) := (List.nodup_cons.mp hl).1
    have hinv2 : ∀ u ∈ tl, ∀ v ∈ s.smsTasks, v.id = u.id → v.status = "pending" :=
      fun u hu => hinv u (List.mem_cons_of_mem a hu)
    cases ho : env.outcome a.id with
    | failFail r =>
      simp only [processTasks, ho]
      exact ⟨t, ht, evolves_rfl t⟩
    | ok =>
      simp only [processTasks, ho]
      have hs2 : ((updateSmsTaskStatus a.id "sent" none s).smsTasks.map
          (fun t => t.id)).Nodup := by
        rw [update_map_id]; exact hs
      by_cases hta : t.id = a.id
      · have htp : t.status = "pending" :=
          hinv a (List.mem_cons_self a tl) t ht hta
        obtain ⟨u, hu, he⟩ :=
          ih (updateSmsTaskStatus a.id "sent" none s) hs2 hl2
            (inv_update tl hinv2 hana) _ (mem_update_self ht hta)
        exact ⟨u, hu, evolves_trans (Or.inr ⟨htp, Or.inl rfl⟩) he⟩
      · obtain ⟨u, hu, he⟩ :=
          ih (updateSmsTaskStatus a.id "sent" none s) hs2 hl2
            (inv_update tl hinv2 hana) _ (mem_update_of_ne ht hta)
        exact ⟨u, hu, he⟩
    | failOk r =>
      simp only [processTasks, ho]
      have hs2 : ((updateSmsTaskStatus a.id "failed" (some r) s).smsTasks.map
          (fun t => t.id)).Nodup := by
        rw [update_map_id]; exact hs
      by_cases hta : t.id = a.id
      · have htp : t.status = "pending" :=
          hinv a (List.mem_cons_self a tl) t ht hta
        obtain ⟨u, hu, he⟩ :=
          ih (updateSmsTaskStatus a.id "failed" (some r) s) hs2 hl2
            (inv_update tl hinv2 hana) _ (mem_update_self ht hta)
        exact ⟨u, hu, evolves_trans (Or.inr ⟨htp, Or.inr ⟨r, rfl⟩⟩) he⟩
      · obtain ⟨u, hu, he⟩ :=
          ih (updateSmsTaskStatus a.id "failed" (some r) s) hs2 hl2
            (inv_update tl hinv2 hana) _ (mem_update_of_ne ht hta)
        exact ⟨u, hu, he⟩

lemma due_inv {now : Int} {s : Store} (h1 : (s.smsTasks.map (fun t => t.id)).Nodup) :
    ∀ u ∈ getPendingSmsTasks now s, ∀ v ∈ s.smsTasks, v.id = u.id →
      v.status = "pending" := by
  intro u hu v hv hid
  rcases mem_getPendingSmsTasks.mp hu with ⟨hus, hup, _⟩
  have : v = u := nodup_id_inj h1 hus hv hid
  rw [this]
  exact hup

lemma tick_evolves {s : Store} (env : TickEnv) (now : Int) (h : WF s) :
    ∀ t ∈ s.smsTasks, ∃ u ∈ (tick env now s).smsTasks, evolves t u := by
  intro t ht
  by_cases hf : env.selectFault
  · simp only [tick, tickBody, hf, if_true]
    exact ⟨t, ht, evolves_rfl t⟩
  · simp only [tick, tickBody, hf, if_false, Bool.false_eq_true, reduceIte]
    exact processTasks_evolves env _ s h.1 (getPending_ids_nodup h.1) (due_inv h.1) t ht

lemma mem_postSchedules_smsTasks {req : ScheduleReq} {now : Int} {s : Store} {t : SmsTask}
    (ht : t ∈ s.smsTasks) : t ∈ (postSchedules req now s).2.smsTasks := by
  rcases req with ⟨dev, cid, ct, sAt⟩
  cases cid <;> cases ct <;> cases sAt <;>
    simp only [postSchedules, createSmsTask] <;>
    (repeat' split) <;>
    first
    | exact ht
    | exact List.mem_append_left _ ht

lemma tick_frozen {s : Store} (env : TickEnv) (now : Int) (h : WF s) {t : SmsTask}
    (ht : t ∈ s.smsTasks) (hst : t.status ≠ "pending") :
    t ∈ (tick env now s).smsTasks := by
  by_cases hf : env.selectFault
  · simpa only [tick, tickBody, hf, if_true] using ht
  · simp only [tick, tickBody, hf, if_false, Bool.false_eq_true, reduceIte]
    refine processTasks_untouched env _ s t ?_ ht
    intro u hu hid
    rcases mem_getPendingSmsTasks.mp hu with ⟨hus, hup, _⟩
    have : u = t := nodup_id_inj h.1 ht hus hid
    rw [this] at hup
    exact hst hup

lemma applyOp_frozen {s : Store} (o : Op) (h : WF s) {t : SmsTask}
    (ht : t ∈ s.smsTasks) (hst : t.status ≠ "pending") :
    t ∈ (applyOp o s).smsTasks := by
  cases o with
  | tickOp env now => exact tick_frozen env now h ht hst
  | schedOp req now => exact mem_postSchedules_smsTasks ht
  | contactOp pn nm now =>
    rw [applyOp, postContacts_smsTasks]
    exact ht

lemma runOps_frozen : ∀ (ops : List Op) (s : Store), WF s → ∀ t ∈ s.smsTasks,
    t.status ≠ "pending" → t ∈ (runOps ops s).smsTasks := by
  intro ops
  induction ops with
  | nil => intro s _ t ht _; exact ht
  | cons o rest ih =>
    intro s h t ht hst
    exact ih _ (WF_applyOp o s h) t (applyOp_frozen o h ht hst) hst

lemma applyOp_evolves {s : Store} (o : Op) (h : WF s) :
    ∀ t ∈ s.smsTasks, ∃ u ∈ (applyOp o s).smsTasks, evolves t u := by
  intro t ht
  cases o with
  | tickOp env now => exact tick_evolves env now h t ht
  | schedOp req now => exact ⟨t, mem_postSchedules_smsTasks ht, evolves_rfl t⟩
  | contactOp pn nm now =>
    refine ⟨t, ?_, evolves_rfl t⟩
    rw [applyOp, postContacts_smsTasks]
    exact ht

lemma runOps_evolves : ∀ (ops : List Op) (s : Store), WF s → ∀ t ∈ s.smsTasks,
    ∃ u ∈ (runOps ops s).smsTasks, evolves t u := by
  intro ops
  induction ops with
  | nil => intro s _ t ht; exact ⟨t, ht, evolves_rfl t⟩
  | cons o rest ih =>
    intro s h t ht
    obtain ⟨u, hu, he⟩ := applyOp_evolves o h t ht
    obtain ⟨w, hw, he2⟩ := ih _ (WF_applyOp o s h) u hu
    exact ⟨w, hw, evolves_trans he he2⟩

lemma runOps_not_selected {s : Store} (h : WF s) {t : SmsTask}
    (ht : t ∈ s.smsTasks) (hst : t.status ≠ "pending") :
    ∀ (ops : List Op) (now : Int) (u : SmsTask),
      u ∈ getPendingSmsTasks now (runOps ops s) → u.id ≠ t.id := by
  intro ops now u hu hid
  have hwf : WF (runOps ops s) := WF_runOps ops s h
  have ht2 : t ∈ (runOps ops s).smsTasks := runOps_frozen ops s h t ht hst
  rcases mem_getPendingSmsTasks.mp hu with ⟨hus, hup, _⟩
  have : u = t := nodup_id_inj hwf.1 ht2 hus hid
  rw [this] at hup
  exact hst hup

/-! ### A failed delivery is recorded once and preserved -/

lemma processTasks_failOk (env : TickEnv) :
    ∀ (l : List SmsTask) (s : Store) (t : SmsTask) (r : String),
      (l.map (fun x => x.id)).Nodup →
      (s.smsTasks.map (fun x => x.id)).Nodup →
      t ∈ l → t ∈ s.smsTasks →
      env.outcome t.id = SendOutcome.failOk r →
      (∀ u ∈ l, ∀ rr : String, env.outcome u.id ≠ SendOutcome.failFail rr) →
      { t with status := "failed", error := errOrNull (some r) } ∈
        (processTasks env l s).1.smsTasks := by
  intro l
  induction l with
  | nil => intro s t r _ _ htl; exact absurd htl (List.not_mem_nil t)
  | cons a tl ih =>
    intro s t r hl hs htl hts ho hnf
    have hl2 : (tl.map (fun x => x.id)).Nodup := (List.nodup_cons.mp hl).2
    have hana : a.id ∉ tl.map (fun x => x.id) := (List.nodup_cons.mp hl).1
    by_cases hta : t.id = a.id
    · have hat : a = t := by
        by_contra hne
        have htl2 : t ∈ tl := by
          rcases List.mem_cons.mp htl with h | h
          · exact absurd h.symm hne
          · exact h
        apply hana
        rw [← hta]
        exact List.mem_map_of_mem _ htl2
      have ho2 : env.outcome a.id = SendOutcome.failOk r := by rw [hat]; exact ho
      simp only [processTasks, ho2]
      apply processTasks_untouched env tl _ _ ?_ ?_
      · intro u hu hid
        apply hana
        have : ({ t with status := "failed", error := errOrNull (some r) } : SmsTask).id
            = t.id := rfl
        rw [← hta]
        rw [this] at hid
        rw [← hid]
        exact List.mem_map_of_mem _ hu
      · rw [hat]
        exact mem_update_self hts rfl
    · have htl2 : t ∈ tl := by
        rcases List.mem_cons.mp htl with h | h
        · exact absurd (by rw [h]) hta
        · exact h
      have hnfa := hnf a (List.mem_cons_self a tl)
      have hnf2 : ∀ u ∈ tl, ∀ rr : String, env.outcome u.id ≠ SendOutcome.failFail rr :=
        fun u hu => hnf u (List.mem_cons_of_mem a hu)
      cases ho2 : env.outcome a.id with
      | failFail rr => exact absurd ho2 (hnfa rr)
      | ok =>
        simp only [processTasks, ho2]
        exact ih _ t r hl2 (by rw [update_map_id]; exact hs) htl2
          (mem_update_of_ne hts hta) ho hnf2
      | failOk rr =>
        simp only [processTasks, ho2]
        exact ih _ t r hl2 (by rw [update_map_id]; exact hs) htl2
          (mem_update_of_ne hts hta) ho hnf2

lemma tick_failOk {s : Store} {env : TickEnv} {now : Int} {t : SmsTask} {r : String}
    (h : WF s) (hf : env.selectFault = false)
    (ht : t ∈ getPendingSmsTasks now s)
    (ho : env.outcome t.id = SendOutcome.failOk r)
    (hnf : ∀ u ∈ getPendingSmsTasks now s, ∀ rr : String,
      env.outcome u.id ≠ SendOutcome.failFail rr) :
    { t with status := "failed", error := errOrNull (some r) } ∈ (tick env now s).smsTasks := by
  simp only [tick, tickBody, hf, Bool.false_eq_true, if_false, reduceIte]
  exact processTasks_failOk env _ s t r (getPending_ids_nodup h.1) h.1 ht
    (mem_getPendingSmsTasks.mp ht).1 ho hnf

/-! ### Counting tasks by status -/

lemma length_status_partition :
    ∀ (l : List SmsTask),
      (∀ t ∈ l, t.status = "pending" ∨ t.status = "sent" ∨ t.status = "failed") →
      l.length =
        (l.filter (fun t => t.status == "sent")).length +
        (l.filter (fun t => t.status == "failed")).length +
        (l.filter (fun t => t.status == "pending")).length := by
  intro l
  induction l with
  | nil => intro _; rfl
  | cons a tl ih =>
    intro h
    have ha := h a (List.mem_cons_self a tl)
    have ihl := ih (fun t ht => h t (List.mem_cons_of_mem a ht))
    rcases ha with ha | ha | ha <;>
      simp [List.filter_cons, ha, ihl] <;> omega

/-! ### Concrete fixtures -/

/-- Operation sequence building a store with one valid contact and one
pending task due at instant 5. -/
def exOps : List Op :=
  [Op.contactOp (some "0123456789") none 0,
   Op.schedOp { deviceId := none, contactId := some 0, content := some "hi",
                scheduledAt := some 5 } 0]

/-- The store reached by exOps. -/
def exStore : Store := runOps exOps emptyStore

/-- The single pending task of exStore. -/
def exTask : SmsTask :=
  { id := 1, deviceId := none, contactId := 0, content := "hi", scheduledAt := 5,
    status := "pending", error := none, createdAt := 0 }

/-- Tick environment in which every send attempt succeeds. -/
def envOkAll : TickEnv := { selectFault := false, outcome := fun _ => SendOutcome.ok }

/-- Tick environment in which every send attempt fails with an empty
thrown message. -/
def envEmptyReason : TickEnv :=
  { selectFault := false, outcome := fun _ => SendOutcome.failOk "" }

/-- Tick environment whose due-task SELECT throws. -/
def envFault : TickEnv := { selectFault := true, outcome := fun _ => SendOutcome.ok }

/-- A 21-word message content. -/
def content21 : String := "a a a a a a a a a a a a a a a a a a a a a"

lemma runOps_append : ∀ (l1 l2 : List Op) (s : Store),
    runOps (l1 ++ l2) s = runOps l2 (runOps l1 s) := by
  intro l1
  induction l1 with
  | nil => intro l2 s; rfl
  | cons o rest ih => intro l2 s; exact ih l2 (applyOp o s)

/-! ### Claim theorems -/

/-- C1 (amended): for every store state and instant now, the due-task
selection getPendingSmsTasks returns exactly the tasks whose status is
pending and whose due time is strictly before now (dueAt < now); in
particular a pending task with dueAt equal to now is NOT returned.  The
claim as frozen asserts the non-strict predicate dueAt <= now; the code
uses drizzle lt, which is strict. -/
theorem listDue_strict_characterization (now : Int) (s : Store) (t : SmsTask) :
    (t ∈ getPendingSmsTasks now s ↔
      t ∈ s.smsTasks ∧ t.status = "pending" ∧ t.scheduledAt < now) ∧
    (t.scheduledAt = now → t ∉ getPendingSmsTasks now s) := by
  constructor
  · exact mem_getPendingSmsTasks
  · intro heq hmem
    rcases mem_getPendingSmsTasks.mp hmem with ⟨_, _, hlt⟩
    rw [heq] at hlt
    exact lt_irrefl now hlt

/-- Witness for C1 (amended), at the concrete reachable store exStore
and the boundary instant now = 5 = dueAt. -/
theorem listDue_strict_characterization_witness :
    (exTask ∈ getPendingSmsTasks 5 exStore ↔
      exTask ∈ exStore.smsTasks ∧ exTask.status = "pending" ∧ exTask.scheduledAt < 5) ∧
    (exTask.scheduledAt = 5 → exTask ∉ getPendingSmsTasks 5 exStore) :=
  listDue_strict_characterization 5 exStore exTask

/-- Counterexample to C1 as frozen: in the reachable store exStore the
task exTask is pending with dueAt = 5 <= now = 5, yet the selection at
now = 5 returns nothing (the code compares strictly). -/
theorem listDue_boundary_counterexample :
    Reachable exStore ∧ exTask ∈ exStore.smsTasks ∧ exTask.status = "pending" ∧
      exTask.scheduledAt ≤ (5 : Int) ∧ getPendingSmsTasks 5 exStore = [] :=
  ⟨⟨exOps, rfl⟩, by decide, by decide, by decide, by decide⟩

/-- C2: from any reachable store, along any further sequence of
operations (scheduler ticks included), every task row keeps its id and
either keeps its status or moves along pending to sent or pending to
failed — never any other edge; and a task that has left pending (has
been processed) is never again returned by any later due-task
selection. -/
theorem pipeline_status_terminal (s : Store) (hs : Reachable s) (ops : List Op) :
    (∀ t ∈ s.smsTasks, ∃ u ∈ (runOps ops s).smsTasks, u.id = t.id ∧
      (u.status = t.status ∨
        (t.status = "pending" ∧ (u.status = "sent" ∨ u.status = "failed")))) ∧
    (∀ t ∈ s.smsTasks, t.status ≠ "pending" →
      ∀ (now : Int) (u : SmsTask),
        u ∈ getPendingSmsTasks now (runOps ops s) → u.id ≠ t.id) := by
  have hwf := reachable_WF hs
  constructor
  · intro t ht
    obtain ⟨u, hu, he⟩ := runOps_evolves ops s hwf t ht
    exact ⟨u, hu, evolves_id he, evolves_status he⟩
  · intro t ht hst now u hu
    exact runOps_not_selected hwf ht hst ops now u hu

/-- Witness for C2 at the concrete reachable store exStore followed by
one all-success tick at instant 6. -/
theorem pipeline_status_terminal_witness :
    (∀ t ∈ exStore.smsTasks, ∃ u ∈ (runOps [Op.tickOp envOkAll 6] exStore).smsTasks,
      u.id = t.id ∧ (u.status = t.status ∨
        (t.status = "pending" ∧ (u.status = "sent" ∨ u.status = "failed")))) ∧
    (∀ t ∈ exStore.smsTasks, t.status ≠ "pending" →
      ∀ (now : Int) (u : SmsTask),
        u ∈ getPendingSmsTasks now (runOps [Op.tickOp envOkAll 6] exStore) → u.id ≠ t.id) :=
  pipeline_status_terminal exStore ⟨exOps, rfl⟩ [Op.tickOp envOkAll 6]

/-- C5: in every reachable store state the dashboard counts satisfy
totalSmsScheduled = totalSent + totalFailed + totalPending (all five
fields are natural numbers, hence non-negative). -/
theorem stats_totals_partition (s : Store) (hs : Reachable s) :
    (getDashboardStats s).totalSmsScheduled =
      (getDashboardStats s).totalSent + (getDashboardStats s).totalFailed +
        (getDashboardStats s).totalPending := by
  have hwf := reachable_WF hs
  have h := length_status_partition s.smsTasks (fun t ht => (hwf.2.1 t ht).2)
  simpa [getDashboardStats] using h

/-- Witness for C5 at the concrete reachable store exStore. -/
theorem stats_totals_partition_witness :
    (getDashboardStats exStore).totalSmsScheduled =
      (getDashboardStats exStore).totalSent + (getDashboardStats exStore).totalFailed +
        (getDashboardStats exStore).totalPending :=
  stats_totals_partition exStore ⟨exOps, rfl⟩

/-- Tick environment in which every send attempt fails with the thrown
message network error. -/
def envNetErr : TickEnv :=
  { selectFault := false, outcome := fun _ => SendOutcome.failOk "network error" }

/-- C3 (amended): when the delivery attempt for a due task fails with
reason r in a tick whose store updates do not themselves fault, exactly
one transition is written for that task: it becomes failed with
error = r, except that an empty reason is stored as an absent error
(the code writes error-or-null); the row is unique for that id, stays
exactly that failed row across all later operations, and is never again
returned by the due-task selection (no retry). -/
theorem failed_task_terminal_no_retry (s : Store) (env : TickEnv) (now : Int)
    (t : SmsTask) (r : String) (hs : Reachable s)
    (hf : env.selectFault = false)
    (ht : t ∈ getPendingSmsTasks now s)
    (ho : env.outcome t.id = SendOutcome.failOk r)
    (hnf : ∀ u ∈ getPendingSmsTasks now s, ∀ rr : String,
      env.outcome u.id ≠ SendOutcome.failFail rr) :
    ({ t with status := "failed", error := errOrNull (some r) } ∈ (tick env now s).smsTasks) ∧
    (∀ u ∈ (tick env now s).smsTasks, u.id = t.id →
      u = { t with status := "failed", error := errOrNull (some r) }) ∧
    (∀ ops : List Op,
      { t with status := "failed", error := errOrNull (some r) } ∈
        (runOps ops (tick env now s)).smsTasks ∧
      ∀ (now2 : Int) (u : SmsTask),
        u ∈ getPendingSmsTasks now2 (runOps ops (tick env now s)) → u.id ≠ t.id) := by
  have hwf := reachable_WF hs
  have hmem := tick_failOk hwf hf ht ho hnf
  have hwt : WF (tick env now s) := WF_tick env now hwf
  have hne : ({ t with status := "failed", error := errOrNull (some r) } : SmsTask).status
      ≠ "pending" := by simp
  refine ⟨hmem, ?_, ?_⟩
  · intro u hu hid
    exact nodup_id_inj hwt.1 hmem hu hid
  · intro ops
    constructor
    · exact runOps_frozen ops _ hwt _ hmem hne
    · intro now2 u hu
      exact runOps_not_selected hwt hmem hne ops now2 u hu

/-- Witness for C3 (amended) at the concrete reachable store exStore, a
tick at instant 6 whose send attempt throws network error. -/
theorem failed_task_terminal_no_retry_witness :
    ({ exTask with status := "failed", error := errOrNull (some "network error") } ∈
        (tick envNetErr 6 exStore).smsTasks) ∧
    (∀ u ∈ (tick envNetErr 6 exStore).smsTasks, u.id = exTask.id →
      u = { exTask with status := "failed", error := errOrNull (some "network error") }) ∧
    (∀ ops : List Op,
      { exTask with status := "failed", error := errOrNull (some "network error") } ∈
        (runOps ops (tick envNetErr 6 exStore)).smsTasks ∧
      ∀ (now2 : Int) (u : SmsTask),
        u ∈ getPendingSmsTasks now2 (runOps ops (tick envNetErr 6 exStore)) →
          u.id ≠ exTask.id) :=
  failed_task_terminal_no_retry exStore envNetErr 6 exTask "network error"
    ⟨exOps, rfl⟩ rfl (by decide) rfl (fun u _ rr => by simp [envNetErr])

/-- Counterexample to C3 as frozen: a delivery failure whose thrown
message is the empty string is recorded with an absent error, not with
error equal to the reason — after the tick no row carries error
equal to the empty string. -/
theorem failed_empty_reason_counterexample :
    Reachable exStore ∧
    exTask ∈ getPendingSmsTasks 6 exStore ∧
    envEmptyReason.outcome exTask.id = SendOutcome.failOk "" ∧
    (tick envEmptyReason 6 exStore).smsTasks =
      [{ exTask with status := "failed", error := none }] ∧
    (∀ u ∈ (tick envEmptyReason 6 exStore).smsTasks, u.error ≠ some "") :=
  ⟨⟨exOps, rfl⟩, by decide, rfl, by decide, by decide⟩

/-- C4 (amended): in every reachable store state the error field is
non-empty only when status = failed, and a stored message is never the
empty string; pending and sent tasks always carry an empty error; and
every operation (task creation, contact creation, scheduler tick with
its sent and failed updates) preserves the property.  The converse of
the frozen iff fails: a failure whose thrown message is empty yields a
failed task with an absent error. -/
theorem error_only_when_failed (s : Store) (hs : Reachable s) :
    (∀ t ∈ s.smsTasks, t.error ≠ none → t.status = "failed" ∧ t.error ≠ some "") ∧
    (∀ t ∈ s.smsTasks, t.status = "pending" ∨ t.status = "sent" → t.error = none) ∧
    (∀ o : Op, ∀ t ∈ (applyOp o s).smsTasks, t.error ≠ none → t.status = "failed") := by
  have he := reachable_errOk hs
  refine ⟨?_, ?_, ?_⟩
  · intro t ht hne2
    rcases he t ht with h | h
    · exact absurd h hne2
    · exact h
  · intro t ht hps
    rcases he t ht with h | ⟨hf2, _⟩
    · exact h
    · exfalso
      rcases hps with hp | hp <;> rw [hp] at hf2 <;> simp at hf2
  · intro o t ht hne2
    rcases errOk_applyOp o s he t ht with h | ⟨hf2, _⟩
    · exact absurd h hne2
    · exact hf2

/-- Witness for C4 (amended) at the concrete reachable store exStore. -/
theorem error_only_when_failed_witness :
    (∀ t ∈ exStore.smsTasks, t.error ≠ none → t.status = "failed" ∧ t.error ≠ some "") ∧
    (∀ t ∈ exStore.smsTasks, t.status = "pending" ∨ t.status = "sent" → t.error = none) ∧
    (∀ o : Op, ∀ t ∈ (applyOp o exStore).smsTasks, t.error ≠ none → t.status = "failed") :=
  error_only_when_failed exStore ⟨exOps, rfl⟩

/-- The reachable store in which the single task failed with an empty
thrown message. -/
def exStoreFailedEmpty : Store := runOps (exOps ++ [Op.tickOp envEmptyReason 6]) emptyStore

/-- Counterexample to C4 as frozen: exStoreFailedEmpty is reachable and
holds a task with status failed and an empty (absent) error, so the
iff between error non-emptiness and failed status does not hold. -/
theorem error_iff_failed_counterexample :
    Reachable exStoreFailedEmpty ∧
    exStoreFailedEmpty.smsTasks = [{ exTask with status := "failed", error := none }] ∧
    ¬(∀ t ∈ exStoreFailedEmpty.smsTasks, (t.error ≠ none ↔ t.status = "failed")) :=
  ⟨⟨exOps ++ [Op.tickOp envEmptyReason 6], rfl⟩, by decide, by decide⟩

/-- Request scheduling a task to the unknown contact id 99. -/
def reqUnknownContact : ScheduleReq :=
  { deviceId := none, contactId := some 99, content := some "hi", scheduledAt := some 10 }

/-- The request of the C6 witness: the 21-word content sent to the
stored contact. -/
def req21 : ScheduleReq :=
  { deviceId := none, contactId := some 0, content := some content21,
    scheduledAt := some 10 }

/-- C6 (amended): with the three required fields present and a non-empty
content, a content of more than 20 whitespace-delimited words is
rejected with a ValidationError and nothing is persisted (in particular
a 21-word content); otherwise the task is created and persisted — the
handler does not check that the destination contact id exists, so an
unknown destination is accepted rather than rejected. -/
theorem create_task_validation (s : Store) (dev : Option Nat) (cid : Nat) (ct : String)
    (sAt : Int) (now : Int) (hct : ct ≠ "") :
    (wordCount ct > 20 →
      postSchedules
          { deviceId := dev, contactId := some cid, content := some ct,
            scheduledAt := some sAt } now s =
        (ApiResult.validationError "Message cannot exceed 20 words", s)) ∧
    (wordCount ct ≤ 20 →
      postSchedules
          { deviceId := dev, contactId := some cid, content := some ct,
            scheduledAt := some sAt } now s =
        (ApiResult.ok
            { id := s.nextId, deviceId := dev, contactId := cid, content := ct,
              scheduledAt := sAt, status := "pending", error := none, createdAt := now },
          { s with
            smsTasks := s.smsTasks ++
              [{ id := s.nextId, deviceId := dev, contactId := cid, content := ct,
                 scheduledAt := sAt, status := "pending", error := none, createdAt := now }],
            nextId := s.nextId + 1 })) := by
  constructor
  · intro hwc
    simp [postSchedules, hct, hwc]
  · intro hwc
    have hlt : ¬ wordCount ct > 20 := not_lt.mpr hwc
    simp [postSchedules, hct, hlt, createSmsTask]

/-- Witness for C6 (amended): the content of req21 has 21 words and the
request is rejected at the concrete reachable store exStore with
nothing persisted. -/
theorem create_task_validation_witness :
    wordCount content21 = 21 ∧
    ((wordCount content21 > 20 →
      postSchedules
          { deviceId := none, contactId := some 0, content := some content21,
            scheduledAt := some 10 } 0 exStore =
        (ApiResult.validationError "Message cannot exceed 20 words", exStore)) ∧
    (wordCount content21 ≤ 20 →
      postSchedules
          { deviceId := none, contactId := some 0, content := some content21,
            scheduledAt := some 10 } 0 exStore =
        (ApiResult.ok
            { id := exStore.nextId, deviceId := none, contactId := 0, content := content21,
              scheduledAt := 10, status := "pending", error := none, createdAt := 0 },
          { exStore with
            smsTasks := exStore.smsTasks ++
              [{ id := exStore.nextId, deviceId := none, contactId := 0,
                 content := content21, scheduledAt := 10, status := "pending",
                 error := none, createdAt := 0 }],
            nextId := exStore.nextId + 1 }))) :=
  ⟨by decide, create_task_validation exStore none 0 content21 10 0 (by decide)⟩

/-- Counterexample to C6 as frozen: in the reachable store exStore no
contact has id 99, yet scheduling to destination 99 is accepted and the
task is persisted instead of being rejected with a ValidationError. -/
theorem unknown_destination_accepted_counterexample :
    Reachable exStore ∧
    (∀ c ∈ exStore.contacts, c.id ≠ 99) ∧
    (postSchedules reqUnknownContact 0 exStore).1 =
      ApiResult.ok
        { id := 2, deviceId := none, contactId := 99, content := "hi",
          scheduledAt := 10, status := "pending", error := none, createdAt := 0 } ∧
    ({ id := 2, deviceId := none, contactId := 99, content := "hi", scheduledAt := 10,
       status := "pending", error := none, createdAt := 0 } : SmsTask) ∈
      (postSchedules reqUnknownContact 0 exStore).2.smsTasks :=
  ⟨⟨exOps, rfl⟩, by decide, by decide, by decide⟩

/-- C7: every task returned with a 200 by the scheduling endpoint enters
the store with the fresh id nextId (distinct from every stored task id),
createdAt equal to the creation instant, status pending and an absent
error, and the new store is the old one with exactly that row
appended. -/
theorem created_task_initial_state (req : ScheduleReq) (now : Int) (s : Store)
    (task : SmsTask) (hs : Reachable s)
    (hok : (postSchedules req now s).1 = ApiResult.ok task) :
    task.status = "pending" ∧ task.error = none ∧ task.createdAt = now ∧
    task.id = s.nextId ∧ (∀ t ∈ s.smsTasks, t.id ≠ task.id) ∧
    (postSchedules req now s).2.smsTasks = s.smsTasks ++ [task] := by
  have hwf := reachable_WF hs
  rcases req with ⟨dev, cid, ct, sAt⟩
  cases cid with
  | none => simp [postSchedules] at hok
  | some c =>
    cases ct with
    | none => simp [postSchedules] at hok
    | some content =>
      cases sAt with
      | none => simp [postSchedules] at hok
      | some sa =>
        by_cases hct : content = ""
        · simp [postSchedules, hct] at hok
        · by_cases hwc : wordCount content > 20
          · simp [postSchedules, hct, hwc] at hok
          · simp only [postSchedules, hct, hwc, if_false, reduceIte, createSmsTask,
              ApiResult.ok.injEq] at hok
            subst hok
            refine ⟨rfl, rfl, rfl, rfl, ?_, ?_⟩
            · intro t ht hid
              exact absurd hid (Nat.ne_of_lt (hwf.2.1 t ht).1)
            · simp [postSchedules, hct, hwc, createSmsTask]

/-- The task created by the C7 witness request. -/
def exTask2 : SmsTask :=
  { id := 2, deviceId := none, contactId := 0, content := "hello", scheduledAt := 10,
    status := "pending", error := none, createdAt := 7 }

/-- Witness for C7 at the concrete reachable store exStore. -/
theorem created_task_initial_state_witness :
    exTask2.status = "pending" ∧ exTask2.error = none ∧ exTask2.createdAt = 7 ∧
    exTask2.id = exStore.nextId ∧ (∀ t ∈ exStore.smsTasks, t.id ≠ exTask2.id) ∧
    (postSchedules
        { deviceId := none, contactId := some 0, content := some "hello",
          scheduledAt := some 10 } 7 exStore).2.smsTasks =
      exStore.smsTasks ++ [exTask2] :=
  created_task_initial_state
    { deviceId := none, contactId := some 0, content := some "hello",
      scheduledAt := some 10 }
    7 exStore exTask2 ⟨exOps, rfl⟩ (by decide)

/-- C8: a store error inside a cron tick is contained by the callback
try/catch: the tick is a total function whose result is exactly the
store produced by the fallible body (nothing propagates), a fault in
the due-task SELECT aborts the tick with the store untouched, the
resulting store is still reachable and well formed, and the scheduler
loop continues — running the remaining operations is exactly running
them from the post-tick store. -/
theorem tick_fault_contained (env : TickEnv) (now : Int) (ops : List Op) (s : Store)
    (hs : Reachable s) :
    runOps (Op.tickOp env now :: ops) s = runOps ops (tick env now s) ∧
    tick env now s = (tickBody env now s).1 ∧
    (env.selectFault = true → tick env now s = s) ∧
    Reachable (tick env now s) ∧ WF (tick env now s) ∧ errOk (tick env now s) := by
  refine ⟨rfl, rfl, ?_, ?_, WF_tick env now (reachable_WF hs),
    errOk_tick env now (reachable_errOk hs)⟩
  · intro hft
    simp [tick, tickBody, hft]
  · rcases hs with ⟨ops0, rfl⟩
    refine ⟨ops0 ++ [Op.tickOp env now], ?_⟩
    rw [runOps_append]
    rfl

/-- Witness for C8 at the concrete reachable store exStore and a tick
whose due-task SELECT throws. -/
theorem tick_fault_contained_witness :
    runOps (Op.tickOp envFault 6 :: [Op.tickOp envOkAll 7]) exStore =
      runOps [Op.tickOp envOkAll 7] (tick envFault 6 exStore) ∧
    tick envFault 6 exStore = (tickBody envFault 6 exStore).1 ∧
    (envFault.selectFault = true → tick envFault 6 exStore = exStore) ∧
    Reachable (tick envFault 6 exStore) ∧ WF (tick envFault 6 exStore) ∧
      errOk (tick envFault 6 exStore) :=
  tick_fault_contained envFault 6 [Op.tickOp envOkAll 7] exStore ⟨exOps, rfl⟩

/-- C10: contact creation is idempotent on the phone number: in every
reachable store, if a contact with the requested phone number already
exists the handler returns that stored contact unchanged and inserts
nothing; and repeating the same create request leaves the store exactly
as after the first request, whatever the supplied name and instant. -/
theorem contact_creation_idempotent (s : Store) (pn : String)
    (nm nm2 : Option String) (now now2 : Int) (hs : Reachable s) :
    ((∃ c ∈ s.contacts, c.phoneNumber = pn) →
      ∃ c, getContactByPhone pn s = some c ∧ c ∈ s.contacts ∧ c.phoneNumber = pn ∧
        postContacts (some pn) nm now s = (ApiResult.ok c, s)) ∧
    (postContacts (some pn) nm2 now2 (postContacts (some pn) nm now s).2).2 =
      (postContacts (some pn) nm now s).2 := by
  constructor
  · rintro ⟨c0, hc0, hp0⟩
    have hex : ∃ x, x ∈ s.contacts ∧ (fun c => c.phoneNumber == pn) x = true :=
      ⟨c0, hc0, by simp [hp0]⟩
    obtain ⟨c, hc⟩ := Option.isSome_iff_exists.mp (List.find?_isSome.mpr hex)
    have hcp : c.phoneNumber = pn := by simpa using List.find?_some hc
    have hcm : c ∈ s.contacts := List.mem_of_find?_eq_some hc
    have hval : validPhone pn = true := by
      rw [← hcp]
      exact ((reachable_WF hs).2.2.2 c hcm).2
    have hpn : pn ≠ "" := by
      intro h
      rw [h] at hval
      exact absurd hval (by decide)
    refine ⟨c, hc, hcm, hcp, ?_⟩
    simp [postContacts, hpn, hval, getContactByPhone, hc]
  · by_cases hpn : pn = ""
    · simp [postContacts, hpn]
    · by_cases hval : validPhone pn = true
      · cases hfind : getContactByPhone pn s with
        | some c => simp [postContacts, hpn, hval, hfind]
        | none =>
          have h2 : getContactByPhone pn (createContact pn nm now s).2 =
              some (createContact pn nm now s).1 := by
            simp only [getContactByPhone, createContact] at hfind ⊢
            rw [List.find?_append, hfind]
            simp
          simp [postContacts, hpn, hval, hfind, h2]
      · simp [postContacts, hpn, hval]

/-- Witness for C10 at the concrete reachable store exStore, whose
contact table already holds the phone number. -/
theorem contact_creation_idempotent_witness :
    (∃ c ∈ exStore.contacts, c.phoneNumber = "0123456789") ∧
    (postContacts (some "0123456789") (some "b") 4
        (postContacts (some "0123456789") none 3 exStore).2).2 =
      (postContacts (some "0123456789") none 3 exStore).2 :=
  ⟨by decide,
    (contact_creation_idempotent exStore "0123456789" none (some "b") 3 4 ⟨exOps, rfl⟩).2⟩
